import Mathlib

/-!
Verification of the gRPC-web client transport core.

The development embeds the transport source (the `unary` and `stream` entry
points of `createGrpcWebTransport`, together with the `ConnectError` class)
as executable Lean definitions and proves properties of the embedding.

Machine integers are modelled as `Nat` with explicit reduction modulo
`2 ^ w` where overflow matters; byte strings are `List Nat`; fallible code
returns `Except`.  Helpers that the transport imports from the sibling
protocol package (response and trailer validation, the envelope, compression
and parsing transforms, the deferred promise) are not part of the staged
sources; each such helper is modelled from the specification text and its
doc comment says so.
-/

namespace GrpcWeb

/-- Status codes of the protocol: the 17 defined gRPC status values.
`Ok` is value 0; the remaining sixteen name error kinds. -/
inductive Code where
  | Ok
  | Canceled
  | Unknown
  | InvalidArgument
  | DeadlineExceeded
  | NotFound
  | AlreadyExists
  | PermissionDenied
  | ResourceExhausted
  | FailedPrecondition
  | Aborted
  | OutOfRange
  | Unimplemented
  | Internal
  | Unavailable
  | DataLoss
  | Unauthenticated
  deriving DecidableEq, Repr

/-- Display name of a status code, as the error class prints it. -/
def codeName : Code → String
  | .Ok => "Ok"
  | .Canceled => "Canceled"
  | .Unknown => "Unknown"
  | .InvalidArgument => "InvalidArgument"
  | .DeadlineExceeded => "DeadlineExceeded"
  | .NotFound => "NotFound"
  | .AlreadyExists => "AlreadyExists"
  | .PermissionDenied => "PermissionDenied"
  | .ResourceExhausted => "ResourceExhausted"
  | .FailedPrecondition => "FailedPrecondition"
  | .Aborted => "Aborted"
  | .OutOfRange => "OutOfRange"
  | .Unimplemented => "Unimplemented"
  | .Internal => "Internal"
  | .Unavailable => "Unavailable"
  | .DataLoss => "DataLoss"
  | .Unauthenticated => "Unauthenticated"

/-- Numeric value of a status code on the wire. -/
def codeValue : Code → Nat
  | .Ok => 0
  | .Canceled => 1
  | .Unknown => 2
  | .InvalidArgument => 3
  | .DeadlineExceeded => 4
  | .NotFound => 5
  | .AlreadyExists => 6
  | .PermissionDenied => 7
  | .ResourceExhausted => 8
  | .FailedPrecondition => 9
  | .Aborted => 10
  | .OutOfRange => 11
  | .Unimplemented => 12
  | .Internal => 13
  | .Unavailable => 14
  | .DataLoss => 15
  | .Unauthenticated => 16

/-- Status code named by a non-zero wire value; values outside the known
range take the `Unknown` escape. -/
def codeFromValue (n : Nat) : Code :=
  match n with
  | 1 => .Canceled
  | 2 => .Unknown
  | 3 => .InvalidArgument
  | 4 => .DeadlineExceeded
  | 5 => .NotFound
  | 6 => .AlreadyExists
  | 7 => .PermissionDenied
  | 8 => .ResourceExhausted
  | 9 => .FailedPrecondition
  | 10 => .Aborted
  | 11 => .OutOfRange
  | 12 => .Unimplemented
  | 13 => .Internal
  | 14 => .Unavailable
  | 15 => .DataLoss
  | 16 => .Unauthenticated
  | _ => .Unknown

/-- Structured detail payload attached to an error (a packed message with a
type URL and raw bytes). -/
structure AnyDetail where
  typeUrl : String
  value : List Nat
  deriving DecidableEq, Repr

/-- Error value used throughout the transport core: a status code, a
human-readable message and an ordered list of structured details. -/
structure ConnectErr where
  code : Code
  message : String
  details : List AnyDetail
  deriving DecidableEq, Repr

/-- Protocol error raised on a second trailer envelope. -/
def extraTrailerErr : ConnectErr :=
  ⟨.InvalidArgument, "protocol error: received extra trailer", []⟩

/-- Protocol error raised on a second message envelope of a unary response. -/
def extraUnaryMessageErr : ConnectErr :=
  ⟨.InvalidArgument, "protocol error: received extra output message for unary method", []⟩

/-- Protocol error raised when the response body ends without a trailer. -/
def missingTrailerErr : ConnectErr :=
  ⟨.InvalidArgument, "protocol error: missing trailer", []⟩

/-- Protocol error raised when a unary response carries no message. -/
def missingUnaryMessageErr : ConnectErr :=
  ⟨.InvalidArgument, "protocol error: missing output message for unary method", []⟩

/-- Protocol error raised on a message envelope after the trailer of a
streaming response. -/
def extraMessageAfterTrailerErr : ConnectErr :=
  ⟨.InvalidArgument, "protocol error: received extra message after trailer", []⟩

/-- Header or trailer block: an ordered list of name and value pairs with
case-insensitive names; duplicate names are kept in order. -/
abbrev TrailerMap := List (String × String)

/-- Lowercased ASCII character. -/
def charLower (c : Char) : Char :=
  if 65 ≤ c.toNat ∧ c.toNat ≤ 90 then Char.ofNat (c.toNat + 32) else c

/-- Lowercased ASCII string. -/
def lowerString (s : String) : String :=
  String.mk (s.data.map charLower)

/-- Value of a non-empty all-digit decimal numeral, accumulated left to
right. -/
def parseDecimalAux : Nat → List Char → Option Nat
  | acc, [] => some acc
  | acc, c :: rest =>
    if 48 ≤ c.toNat ∧ c.toNat ≤ 57 then parseDecimalAux (acc * 10 + (c.toNat - 48)) rest
    else none

/-- Non-negative decimal value of a string; anything but a non-empty digit
string is rejected. -/
def parseDecimal (s : String) : Option Nat :=
  match s.data with
  | [] => none
  | l => parseDecimalAux 0 l

/-- First value stored under a name, compared case-insensitively. -/
def findHeader (t : TrailerMap) (name : String) : Option String :=
  (t.filter (fun p => lowerString p.1 = lowerString name)).head?.map (·.2)

/-- Numeric value of a hexadecimal digit character. -/
def hexVal (c : Char) : Option Nat :=
  if '0' ≤ c ∧ c ≤ '9' then some (c.toNat - 48)
  else if 'a' ≤ c ∧ c ≤ 'f' then some (c.toNat - 87)
  else if 'A' ≤ c ∧ c ≤ 'F' then some (c.toNat - 55)
  else none

/-- Percent-decoding over a character list: a percent sign followed by two
hexadecimal digits becomes the encoded character; anything else is kept. -/
def percentDecodeChars : List Char → List Char
  | '%' :: h1 :: h2 :: rest =>
    match hexVal h1, hexVal h2 with
    | some a, some b => Char.ofNat (16 * a + b) :: percentDecodeChars rest
    | _, _ => '%' :: percentDecodeChars (h1 :: h2 :: rest)
  | c :: rest => c :: percentDecodeChars rest
  | [] => []

/-- Percent-decoding of a string, used for the grpc-message trailer value. -/
def percentDecode (s : String) : String :=
  String.mk (percentDecodeChars s.data)

/-- Modelled from the spec: `validateTrailer` of the protocol package (it is
not among the staged sources).  The grpc-status entry must be present and
parse as a non-negative decimal integer; unknown values take the Unknown
escape.  A non-zero status yields the mapped error carrying that status
code and the percent-decoded grpc-message; a zero status is success even
when a grpc-message is present.  Decoding of the structured details entry
is outside the modelled fragment (no claim depends on it). -/
def validateTrailer (t : TrailerMap) : Option ConnectErr :=
  match findHeader t "grpc-status" with
  | none => some ⟨.Unknown, "missing trailer header grpc-status", []⟩
  | some s =>
    match parseDecimal s with
    | none => some ⟨.Unknown, "invalid trailer header grpc-status", []⟩
    | some 0 => none
    | some n =>
      some ⟨codeFromValue n, percentDecode ((findHeader t "grpc-message").getD ""), []⟩

namespace Bench

/-- Status codes of the error class staged under the benchmark package:
an error may carry any defined code except `Ok`. -/
def ErrorCode := { c : Code // c ≠ Code.Ok }

/-- Error class of the staged sources: the constructor takes a message, an
optional code defaulting to `Unknown`, and optional details defaulting to
the empty list; the stored message is prefixed with the bracketed code
name, as the class passes it to the base class. -/
structure ConnectError where
  code : ErrorCode
  message : String
  details : List AnyDetail

/-- Constructor of the error class: omitted arguments take their declared
defaults (`Unknown` for the code, the empty list for the details). -/
def ConnectError.make (message : String) (code : Option ErrorCode)
    (details : Option (List AnyDetail)) : ConnectError :=
  let c := code.getD ⟨Code.Unknown, by decide⟩
  { code := c
    message := "[" ++ codeName c.1 ++ "] " ++ message
    details := details.getD [] }

end Bench

/-- Envelope on the wire: a flag byte and a payload.  Wire layout is one
byte of flags, four bytes of big-endian payload length, then the payload. -/
structure Envelope where
  flags : Nat
  payload : List Nat
  deriving DecidableEq, Repr

/-- Trailer flag constant: bit 7 of the envelope flag byte. -/
def trailerFlag : Nat := 128

/-- Big-endian four-byte encoding of a length (reduced modulo byte size, as
a data view write would). -/
def be32 (n : Nat) : List Nat :=
  [n / 16777216 % 256, n / 65536 % 256, n / 256 % 256, n % 256]

/-- Big-endian four-byte decoding of a length. -/
def decodeBe32 (a b c d : Nat) : Nat :=
  ((a * 256 + b) * 256 + c) * 256 + d

/-- Wire bytes of one envelope: flag byte, length prefix, payload. -/
def encodeEnvelope (e : Envelope) : List Nat :=
  e.flags % 256 :: (be32 e.payload.length ++ e.payload)

/-- Modelled from the spec: `transformJoinEnvelopes` of the protocol
package concatenates already serialized envelope buffers into one byte
stream. -/
def transformJoinEnvelopes (bufs : List (List Nat)) : List Nat :=
  bufs.foldr (· ++ ·) []

/-- Modelled from the spec: the splitting direction of the envelope codec
(`transformSplitEnvelope`).  Reads a five-byte prefix, fails when the
announced length exceeds readMaxBytes, fails with a premature end-of-stream
error when fewer bytes remain than announced, and otherwise emits the
envelope and continues on the rest. -/
def transformSplitEnvelope (readMax : Nat) : List Nat → Except ConnectErr (List Envelope)
  | [] => .ok []
  | f :: a :: b :: c :: d :: rest =>
    let len := decodeBe32 a b c d
    if len > readMax then
      .error ⟨.ResourceExhausted, "message size is larger than configured readMaxBytes", []⟩
    else if rest.length < len then
      .error ⟨.InvalidArgument, "protocol error: premature end of stream", []⟩
    else do
      let tail ← transformSplitEnvelope readMax (rest.drop len)
      .ok (⟨f, rest.take len⟩ :: tail)
  | _ => .error ⟨.InvalidArgument, "protocol error: premature end of stream", []⟩
termination_by bs => bs.length
decreasing_by
  simp only [List.length_drop, List.length_cons]
  omega

/-- Compression descriptor: a registry name and a pair of byte functions. -/
structure Compression where
  name : String
  compress : List Nat → List Nat
  decompress : List Nat → List Nat

/-- Flag byte with bit 0 cleared. -/
def clearCompressedBit (f : Nat) : Nat := 2 * (f / 2)

/-- Flag byte with bit 0 set. -/
def setCompressedBit (f : Nat) : Nat := 2 * (f / 2) + 1

/-- Modelled from the spec: `transformCompressEnvelope`.  When a descriptor
is configured and the payload reaches compressMinBytes, the payload is
replaced by its compressed form and bit 0 of the flags is set; otherwise
bit 0 is cleared. -/
def transformCompressEnvelope (c : Option Compression) (compressMinBytes : Nat)
    (e : Envelope) : Envelope :=
  match c with
  | some comp =>
    if compressMinBytes ≤ e.payload.length then
      ⟨setCompressedBit e.flags, comp.compress e.payload⟩
    else ⟨clearCompressedBit e.flags, e.payload⟩
  | none => ⟨clearCompressedBit e.flags, e.payload⟩

/-- Modelled from the spec: `transformDecompressEnvelope`.  A set bit 0
requires a descriptor matched against the response encoding; the payload is
replaced by its decompressed form, bit 0 is cleared, and a decompressed
size beyond readMaxBytes is a resource-exhausted error. -/
def transformDecompressEnvelope (c : Option Compression) (readMax : Nat)
    (e : Envelope) : Except ConnectErr Envelope :=
  if e.flags % 2 = 1 then
    match c with
    | none =>
      .error ⟨.Internal, "received compressed envelope, but no grpc-encoding", []⟩
    | some comp =>
      let p := comp.decompress e.payload
      if p.length > readMax then
        .error ⟨.ResourceExhausted, "message size is larger than configured readMaxBytes", []⟩
      else .ok ⟨clearCompressedBit e.flags, p⟩
  else .ok e

/-- Byte list of a string, one byte per character. -/
def strBytes (s : String) : List Nat := s.data.map Char.toNat

/-- String built back from a byte list. -/
def bytesToString (bs : List Nat) : String := String.mk (bs.map Char.ofNat)

/-- Byte list split on a separator byte. -/
def splitOnByte (sep : Nat) : List Nat → List (List Nat)
  | [] => [[]]
  | x :: rest =>
    let r := splitOnByte sep rest
    if x = sep then [] :: r
    else
      match r with
      | h :: t => (x :: h) :: t
      | [] => [[x]]

/-- Byte list split at the first colon byte, when one occurs. -/
def splitFirstColon : List Nat → List Nat × List Nat
  | [] => ([], [])
  | b :: rest =>
    if b = 58 then ([], rest)
    else
      let p := splitFirstColon rest
      (b :: p.1, p.2)

/-- Leading space byte dropped from a byte list. -/
def dropLeadingSpace : List Nat → List Nat
  | 32 :: rest => rest
  | l => l

/-- Trailing carriage-return byte dropped from a byte list. -/
def dropTrailingCr (l : List Nat) : List Nat :=
  match l.getLast? with
  | some 13 => l.dropLast
  | _ => l

/-- Modelled from the spec: the parsing direction of the trailer codec
(`createTrailerSerialization`).  The payload is an HTTP/1-style header
block, one entry per line as name, colon, value; line endings may be CRLF
or LF, names are lowercased, duplicates are collected in order. -/
def parseTrailerBytes (bs : List Nat) : Except ConnectErr TrailerMap :=
  let lines := ((splitOnByte 10 bs).map dropTrailingCr).filter (· ≠ [])
  .ok (lines.map fun l =>
    let p := splitFirstColon l
    (lowerString (bytesToString p.1), bytesToString (dropLeadingSpace p.2)))

/-- Parsed item of a streaming response body: either a typed output message
or the trailer block carried by the trailer envelope. -/
inductive ParsedEnv (O : Type) where
  | msg (value : O)
  | trailer (value : TrailerMap)
  deriving DecidableEq, Repr

/-- Modelled from the spec: `transformParseEnvelope` applied with the
trailer flag and the trailer serialization.  An envelope whose trailer bit
is set parses as the trailer block; a plain envelope parses as a message;
any other flag bit left after decompression is a protocol error. -/
def transformParseEnvelope {O : Type} (parse : List Nat → Except ConnectErr O)
    (e : Envelope) : Except ConnectErr (ParsedEnv O) :=
  if e.flags / 128 % 2 = 1 then
    (parseTrailerBytes e.payload).map ParsedEnv.trailer
  else if e.flags = 0 then
    (parse e.payload).map ParsedEnv.msg
  else .error ⟨.InvalidArgument, "protocol error: unexpected envelope flags", []⟩

/-- Outbound input of a call: either an already typed message instance of
the input class, or a structural value still to be converted by the input
constructor. -/
inductive CallInput (I P : Type) where
  | typed (m : I)
  | structural (p : P)
  deriving DecidableEq, Repr

/-- Normalization of an outbound input, transcribed from the unary entry
point: a typed instance is used unchanged, any other value is passed to
the input constructor.  The normalize transform of the streaming pipeline
applies the same conversion. -/
def normalizeMessage {I P : Type} (ctor : P → I) : CallInput I P → I
  | .typed m => m
  | .structural p => ctor p

/-- Modelled from the spec: `transformNormalizeMessage` applied with the
input class, the per-message normalize stage of the streaming request
pipeline. -/
def transformNormalizeMessage {I P : Type} (ctor : P → I)
    (msgs : List (CallInput I P)) : List I :=
  msgs.map (normalizeMessage ctor)

/-- Modelled from the spec: `transformSerializeEnvelope`.  A message is
serialized with the method codec into a plain envelope; a serialized
payload larger than writeMaxBytes fails. -/
def transformSerializeEnvelope {I : Type} (ser : I → List Nat) (writeMax : Nat)
    (m : I) : Except ConnectErr Envelope :=
  let p := ser m
  if p.length > writeMax then
    .error ⟨.ResourceExhausted, "message size is larger than configured writeMaxBytes", []⟩
  else .ok ⟨0, p⟩

/-- Sequential traversal of a list in the error monad: the first failing
element fails the whole traversal. -/
def mapExcept {A B : Type} (f : A → Except ConnectErr B) : List A → Except ConnectErr (List B)
  | [] => .ok []
  | a :: rest => do
    let b ← f a
    let bs ← mapExcept f rest
    .ok (b :: bs)

/-- Request body of the streaming entry point, transcribed from its pipe
call: the sent messages pass normalize, serialize, conditional compression
and envelope joining, in that order. -/
def streamRequestBody {I P : Type} (ctor : P → I) (ser : I → List Nat)
    (sendCompression : Option Compression) (compressMinBytes writeMax : Nat)
    (msgs : List (CallInput I P)) : Except ConnectErr (List Nat) := do
  let typed := transformNormalizeMessage ctor msgs
  let envs ← mapExcept (transformSerializeEnvelope ser writeMax) typed
  let compressed := envs.map (transformCompressEnvelope sendCompression compressMinBytes)
  .ok (transformJoinEnvelopes (compressed.map encodeEnvelope))

/-- Request body of the streaming entry point for already typed messages:
the same pipeline without the normalize stage. -/
def streamRequestBodyTyped {I : Type} (ser : I → List Nat)
    (sendCompression : Option Compression) (compressMinBytes writeMax : Nat)
    (msgs : List I) : Except ConnectErr (List Nat) := do
  let envs ← mapExcept (transformSerializeEnvelope ser writeMax) msgs
  let compressed := envs.map (transformCompressEnvelope sendCompression compressMinBytes)
  .ok (transformJoinEnvelopes (compressed.map encodeEnvelope))

/-- Request body of the unary entry point, transcribed from its request
construction and pipe call: the single input is normalized where the
request message is built, then serialized, conditionally compressed and
joined. -/
def unaryRequestBody {I P : Type} (ctor : P → I) (ser : I → List Nat)
    (sendCompression : Option Compression) (compressMinBytes writeMax : Nat)
    (input : CallInput I P) : Except ConnectErr (List Nat) := do
  let m := normalizeMessage ctor input
  let env ← transformSerializeEnvelope ser writeMax m
  let compressed := transformCompressEnvelope sendCompression compressMinBytes env
  .ok (transformJoinEnvelopes [encodeEnvelope compressed])

/-- Response pipeline shared by both entry points, transcribed from their
pipe calls: the body bytes pass envelope splitting, decompression and
envelope-or-trailer parsing, in that order. -/
def responsePipeline {O : Type} (parse : List Nat → Except ConnectErr O)
    (compression : Option Compression) (readMax : Nat)
    (body : List Nat) : Except ConnectErr (List (ParsedEnv O)) := do
  let envs ← transformSplitEnvelope readMax body
  let decompressed ← mapExcept (transformDecompressEnvelope compression readMax) envs
  mapExcept (transformParseEnvelope parse) decompressed

/-- Result of response validation: the name of the matched response
compression, when one applies, and whether the response headers carry the
status (a trailers-only response). -/
structure ValidateOk where
  compressionName : Option String
  foundStatus : Bool
  deriving DecidableEq, Repr

/-- Status code mapped from a non-200 HTTP status. -/
def codeFromHttpStatus (status : Nat) : Code :=
  match status with
  | 401 => .Unauthenticated
  | 403 => .PermissionDenied
  | 404 => .Unimplemented
  | 429 => .Unavailable
  | 502 => .Unavailable
  | 503 => .Unavailable
  | 504 => .Unavailable
  | _ => .Unknown

/-- Whether a content type matches the protocol and the configured wire
format. -/
def contentTypeOk (useBinaryFormat : Bool) (ct : String) : Bool :=
  if useBinaryFormat then
    ct = "application/grpc-web" ∨ ct = "application/grpc-web+proto"
  else ct = "application/grpc-web+json"

/-- Modelled from the spec: `validateResponseWithCompression` of the
protocol package.  The HTTP status must be 200, any other status maps to
its gRPC code; the content type must name the protocol with the configured
format; a response encoding must match one of acceptCompression (identity
is implicit); response headers carrying grpc-status are the trailers, so a
zero status reports foundStatus and a non-zero status is the mapped error
(the streaming entry point comments that foundStatus means a zero status
header was present). -/
def validateResponseWithCompression (useBinaryFormat : Bool)
    (acceptCompression : List String) (status : Nat)
    (header : TrailerMap) : Except ConnectErr ValidateOk := do
  if status ≠ 200 then
    throw ⟨codeFromHttpStatus status, "HTTP " ++ toString status, []⟩
  if ¬ contentTypeOk useBinaryFormat ((findHeader header "content-type").getD "") then
    throw ⟨.Unimplemented, "unsupported content type", []⟩
  let compressionName ←
    match findHeader header "grpc-encoding" with
    | none => pure none
    | some enc =>
      if acceptCompression.contains enc then pure (some enc)
      else if enc = "identity" then pure none
      else throw ⟨.InvalidArgument, "unsupported response encoding", []⟩
  match findHeader header "grpc-status" with
  | none => pure ⟨compressionName, false⟩
  | some _ =>
    match validateTrailer header with
    | some e => throw e
    | none => pure ⟨compressionName, true⟩

/-- Response of the HTTP client as the call logic consumes it: the HTTP
status, the response headers, and the body already taken through the
response pipeline to a list of parsed envelopes. -/
structure UniversalResponse (O : Type) where
  status : Nat
  header : TrailerMap
  envs : List (ParsedEnv O)
  deriving DecidableEq, Repr

/-- Collection loop of the unary entry point, transcribed from its pipeTo
sink: at most one message and at most one trailer are collected; a second
trailer or a second message fails immediately. -/
def unaryCollect {O : Type} (message : Option O) (trailer : Option TrailerMap) :
    List (ParsedEnv O) → Except ConnectErr (Option O × Option TrailerMap)
  | [] => .ok (message, trailer)
  | .trailer h :: rest =>
    match trailer with
    | some _ => .error extraTrailerErr
    | none => unaryCollect message (some h) rest
  | .msg o :: rest =>
    match message with
    | some _ => .error extraUnaryMessageErr
    | none => unaryCollect (some o) trailer rest

/-- Body handling of the unary entry point after the collection loop,
transcribed from the checks that follow the pipeTo call: a missing trailer
fails first, then the trailer is validated, then a missing message fails. -/
def unaryPostBody {O : Type} (envs : List (ParsedEnv O)) :
    Except ConnectErr (O × TrailerMap) := do
  let (message, trailer) ← unaryCollect none none envs
  match trailer with
  | none => throw missingTrailerErr
  | some t =>
    match validateTrailer t with
    | some e => throw e
    | none =>
      match message with
      | none => throw missingUnaryMessageErr
      | some m => pure (m, t)

/-- Unary call outcome on a given response, transcribed from the unary
entry point: the response is validated (the validation result is otherwise
unused, the unary code reads only the compression out of it), then the
body is collected and checked. -/
def unaryCall {O : Type} (useBinaryFormat : Bool) (acceptCompression : List String)
    (resp : UniversalResponse O) : Except ConnectErr (O × TrailerMap) := do
  let _ ← validateResponseWithCompression useBinaryFormat acceptCompression
    resp.status resp.header
  unaryPostBody resp.envs

/-- Settling action performed on the deferred responseTrailer promise. -/
inductive DeferAction where
  | resolve (h : TrailerMap)
  | reject (e : ConnectErr)
  deriving DecidableEq, Repr

/-- Final state of a one-shot deferred promise. -/
inductive TrailerState where
  | pending
  | resolved (h : TrailerMap)
  | rejected (e : ConnectErr)
  deriving DecidableEq, Repr

/-- Modelled from the spec: the deferred promise (`defer`) is a one-shot
future, so of a list of settling actions the first one wins and later
actions are without effect. -/
def settle : List DeferAction → TrailerState
  | [] => .pending
  | .resolve h :: _ => .resolved h
  | .reject e :: _ => .rejected e

/-- Run of the inbound generator of the streaming entry point: the values
it yields in order, the error it throws (none when it returns normally),
and the settling actions it performs on responseTrailer, in order. -/
structure GenResult (O : Type) where
  yields : List O
  err : Option ConnectErr
  actions : List DeferAction
  deriving DecidableEq, Repr

/-- Loop of the inbound generator over the parsed envelopes, transcribed
from the streaming read implementation: a first trailer is validated (a
validation failure is thrown without settling responseTrailer) and then
resolves responseTrailer; an envelope after the trailer rejects
responseTrailer and throws; end of the stream without a trailer rejects
responseTrailer and throws. -/
def streamLoop {O : Type} (trailerReceived : Bool) :
    List (ParsedEnv O) → GenResult O
  | [] =>
    if trailerReceived then ⟨[], none, []⟩
    else ⟨[], some missingTrailerErr, [.reject missingTrailerErr]⟩
  | .trailer h :: rest =>
    if trailerReceived then ⟨[], some extraTrailerErr, [.reject extraTrailerErr]⟩
    else
      match validateTrailer h with
      | some e => ⟨[], some e, []⟩
      | none =>
        let r := streamLoop true rest
        ⟨r.yields, r.err, .resolve h :: r.actions⟩
  | .msg o :: rest =>
    if trailerReceived then
      ⟨[], some extraMessageAfterTrailerErr, [.reject extraMessageAfterTrailerErr]⟩
    else
      let r := streamLoop false rest
      ⟨o :: r.yields, r.err, r.actions⟩

/-- Inbound generator of the streaming entry point: with foundStatus the
body must be empty (a first item is the extra-trailer error, rejected into
responseTrailer and thrown) and the generator returns at once without
settling responseTrailer; otherwise the loop over the parsed envelopes
runs. -/
def streamGen {O : Type} (foundStatus : Bool) (envs : List (ParsedEnv O)) :
    GenResult O :=
  if foundStatus then
    match envs with
    | [] => ⟨[], none, []⟩
    | _ :: _ => ⟨[], some extraTrailerErr, [.reject extraTrailerErr]⟩
  else streamLoop false envs

/-- Result of one read call on the streaming connection. -/
inductive ReadResult (O : Type) where
  | value (o : O)
  | done
  | error (e : ConnectErr)
  deriving DecidableEq, Repr

/-- Result of the read with index `i` once the generator run is fixed:
yielded values come first, then the read during which the generator throws
rejects (or the stream is done), and every later read of the completed
generator returns done, as a finished generator answers done to further
next calls. -/
def readAtGen {O : Type} (g : GenResult O) (i : Nat) : ReadResult O :=
  match g.yields.get? i with
  | some o => .value o
  | none =>
    if i = g.yields.length then
      match g.err with
      | some e => .error e
      | none => .done
    else .done

/-- Result of the read with index `i` on a streaming connection,
transcribed from the read implementation: the first read awaits the
response and validates it, and a validation failure is thrown from the
read; since the iterator is then never installed, every later read
validates and fails the same way.  With validation passed the generator
run determines every read. -/
def connRead {O : Type} (useBinaryFormat : Bool) (acceptCompression : List String)
    (resp : UniversalResponse O) (i : Nat) : ReadResult O :=
  match validateResponseWithCompression useBinaryFormat acceptCompression
      resp.status resp.header with
  | .error e => .error e
  | .ok v => readAtGen (streamGen v.foundStatus resp.envs) i

/-- Final state of the responseTrailer promise after the inbound side of a
streaming call has been driven to its end by reads: the settling actions
of the generator run, first one winning.  A validation failure performs no
settling action. -/
def connTrailerState {O : Type} (useBinaryFormat : Bool)
    (acceptCompression : List String) (resp : UniversalResponse O) : TrailerState :=
  match validateResponseWithCompression useBinaryFormat acceptCompression
      resp.status resp.header with
  | .error _ => .pending
  | .ok v => settle (streamGen v.foundStatus resp.envs).actions

/-- Value the responseHeader promise resolves with, transcribed from the
connection construction: the raw header block of the HTTP response head,
with no validation applied. -/
def responseHeaderOf {O : Type} (resp : UniversalResponse O) : TrailerMap :=
  resp.header

/-- Observable event in the linearization of a streaming call. -/
inductive CallEvent (O : Type) where
  | requestSent
  | connReturned
  | headReceived
  | responseHeaderResolved (h : TrailerMap)
  | validationPerformed
  | readReturned (r : ReadResult O)
  deriving DecidableEq, Repr

/-- Events of the streaming entry point up to returning the connection,
transcribed from its body: the HTTP request is started and the connection
object is returned at once; the entry point awaits nothing, so the
response head is not received and no response validation runs here. -/
def streamSetupTrace (O : Type) : List (CallEvent O) :=
  [.requestSent, .connReturned]

/-- Events of the first read call, transcribed from the read
implementation: the read first awaits the response promise, on whose
fulfillment the responseHeader promise (a then of the same promise,
attached at connection construction) resolves with the raw header block;
then response validation runs; then the read returns its first result. -/
def firstReadTrace {O : Type} (useBinaryFormat : Bool)
    (acceptCompression : List String) (resp : UniversalResponse O) :
    List (CallEvent O) :=
  [.headReceived, .responseHeaderResolved resp.header, .validationPerformed,
    .readReturned (connRead useBinaryFormat acceptCompression resp 0)]

/-- Full linearization of a streaming call up to the completion of the
first read. -/
def callTrace {O : Type} (useBinaryFormat : Bool)
    (acceptCompression : List String) (resp : UniversalResponse O) :
    List (CallEvent O) :=
  streamSetupTrace O ++ firstReadTrace useBinaryFormat acceptCompression resp

/-- Number of message envelopes among parsed envelopes. -/
def msgCount {O : Type} : List (ParsedEnv O) → Nat
  | [] => 0
  | .msg _ :: rest => msgCount rest + 1
  | .trailer _ :: rest => msgCount rest

/-- Number of trailer envelopes among parsed envelopes. -/
def trailerCount {O : Type} : List (ParsedEnv O) → Nat
  | [] => 0
  | .msg _ :: rest => trailerCount rest
  | .trailer _ :: rest => trailerCount rest + 1

/-- One for a present optional value, zero for an absent one. -/
def optOne {α : Type} : Option α → Nat
  | none => 0
  | some _ => 1

/-- Counting invariant of the unary collection loop: a successful run adds
the collected occurrences to what was already present, so each kind of
envelope occurs at most once in a successful body. -/
theorem unaryCollect_ok_counts {O : Type} (envs : List (ParsedEnv O)) :
    ∀ (m : Option O) (t : Option TrailerMap) (m' : Option O) (t' : Option TrailerMap),
      unaryCollect m t envs = .ok (m', t') →
      msgCount envs + optOne m = optOne m' ∧ trailerCount envs + optOne t = optOne t' := by
  induction envs with
  | nil =>
    intro m t m' t' h
    simp only [unaryCollect, Except.ok.injEq, Prod.mk.injEq] at h
    simp [msgCount, trailerCount, h.1, h.2]
  | cons e rest ih =>
    intro m t m' t' h
    cases e with
    | trailer ht =>
      cases t with
      | some x => simp [unaryCollect] at h
      | none =>
        have hr := ih m (some ht) m' t' (by simpa [unaryCollect] using h)
        simp only [msgCount, trailerCount, optOne] at hr ⊢
        omega
    | msg o =>
      cases m with
      | some x => simp [unaryCollect] at h
      | none =>
        have hr := ih (some o) t m' t' (by simpa [unaryCollect] using h)
        simp only [msgCount, trailerCount, optOne] at hr ⊢
        omega

/-- Message envelopes before the trailer pass through the generator loop
unchanged: they are yielded in order in front of whatever the rest of the
body produces. -/
theorem streamLoop_yields_msgs_first {O : Type} (pre : List O) (suffix : List (ParsedEnv O)) :
    streamLoop false (pre.map ParsedEnv.msg ++ suffix)
      = ⟨pre ++ (streamLoop false suffix).yields, (streamLoop false suffix).err,
         (streamLoop false suffix).actions⟩ := by
  induction pre with
  | nil => simp
  | cons o rest ih => simp [streamLoop, ih]

/-- A per-element traversal over the error monad succeeds pointwise when
every element does. -/
theorem mapExcept_ok_of_forall {α β : Type} (f : α → Except ConnectErr β) (g : α → β) :
    ∀ (l : List α), (∀ a ∈ l, f a = .ok (g a)) → mapExcept f l = .ok (l.map g) := by
  intro l
  induction l with
  | nil => intro _; rfl
  | cons a rest ih =>
    intro h
    have ha := h a (by simp)
    have hr := ih (fun x hx => h x (by simp [hx]))
    simp only [mapExcept, ha, hr]
    rfl

/-- Big-endian length encoding round trip. -/
theorem decodeBe32_be32 (n : Nat) (h : n < 4294967296) :
    decodeBe32 (n / 16777216 % 256) (n / 65536 % 256) (n / 256 % 256) (n % 256) = n := by
  unfold decodeBe32
  omega

/-- Splitting a stream that starts with one well-formed encoded envelope
peels that envelope off. -/
theorem transformSplitEnvelope_encode_cons (rMax : Nat) (e : Envelope) (rest : List Nat)
    (h1 : e.payload.length ≤ rMax) (h2 : e.payload.length < 4294967296)
    (h3 : e.flags < 256) :
    transformSplitEnvelope rMax (encodeEnvelope e ++ rest)
      = (transformSplitEnvelope rMax rest).map (fun l => e :: l) := by
  obtain ⟨f, p⟩ := e
  simp only [Envelope.mk.injEq] at *
  simp only [encodeEnvelope, be32, List.cons_append, List.append_assoc] at *
  rw [transformSplitEnvelope]
  rw [decodeBe32_be32 p.length h2]
  rw [if_neg (by omega)]
  rw [if_neg (by simp [List.length_append])]
  simp only [List.nil_append]
  rw [List.take_left, List.drop_left]
  rw [Nat.mod_eq_of_lt h3]
  cases hx : transformSplitEnvelope rMax rest with
  | error err => simp [hx, Except.map, bind, Except.bind]
  | ok tail => simp [hx, Except.map, bind, Except.bind]

/-- Round trip of the envelope codec: splitting the joined encodings of
well-formed envelopes recovers them. -/
theorem transformSplitEnvelope_join (rMax : Nat) :
    ∀ (envs : List Envelope),
      (∀ e ∈ envs, e.payload.length ≤ rMax ∧ e.payload.length < 4294967296 ∧ e.flags < 256) →
      transformSplitEnvelope rMax (transformJoinEnvelopes (envs.map encodeEnvelope)) = .ok envs := by
  intro envs
  induction envs with
  | nil => intro _; simp [transformJoinEnvelopes, transformSplitEnvelope]
  | cons e rest ih =>
    intro h
    have he := h e (by simp)
    have hj : transformJoinEnvelopes ((e :: rest).map encodeEnvelope)
        = encodeEnvelope e ++ transformJoinEnvelopes (rest.map encodeEnvelope) := rfl
    rw [hj, transformSplitEnvelope_encode_cons rMax e _ he.1 he.2.1 he.2.2]
    rw [ih (fun x hx => h x (by simp [hx]))]
    rfl

/-- Headers of a well-formed binary-format response head. -/
def okHeader : TrailerMap := [("content-type", "application/grpc-web+proto")]

/-- Streaming response whose body holds a single trailer envelope carrying
a non-zero status with a percent-encoded message. -/
def errTrailerResp : UniversalResponse Unit :=
  { status := 200
    header := okHeader
    envs := [ParsedEnv.trailer [("grpc-status", "8"), ("grpc-message", "rate%20limited")]] }

/-- Trailers-only response: a zero status in the response headers and an
empty body. -/
def trailersOnlyResp : UniversalResponse Unit :=
  { status := 200
    header := [("content-type", "application/grpc-web+proto"), ("grpc-status", "0")]
    envs := [] }

/-- Trailers-only response head paired with a non-empty body. -/
def trailersOnlyNonEmptyResp : UniversalResponse Unit :=
  { status := 200
    header := [("content-type", "application/grpc-web+proto"), ("grpc-status", "0")]
    envs := [ParsedEnv.msg ()] }

/-- Streaming response whose body holds a valid trailer envelope followed
by a second trailer envelope. -/
def doubleTrailerResp : UniversalResponse Unit :=
  { status := 200
    header := okHeader
    envs := [ParsedEnv.trailer [("grpc-status", "0")],
             ParsedEnv.trailer [("grpc-status", "0")]] }

/-- C1: on a streaming body whose trailer envelope carries the non-zero
grpc-status 8 with message rate%20limited, the read consuming the trailer
rejects with the mapped error (ResourceExhausted, percent-decoded
message), but the responseTrailer promise is never settled, because the
trailer validation throws before the resolve call and no reject is
attempted on that path, and the following read returns done, because a
completed generator answers done: the code diverges from the claim on the
promise and on the later reads. -/
theorem c1_nonzero_status_read_and_trailer :
    validateTrailer [("grpc-status", "8"), ("grpc-message", "rate%20limited")]
      = some ⟨Code.ResourceExhausted, "rate limited", []⟩ ∧
    connRead true [] errTrailerResp 0 = .error ⟨Code.ResourceExhausted, "rate limited", []⟩ ∧
    connRead true [] errTrailerResp 1 = .done ∧
    connRead true [] errTrailerResp 2 = .done ∧
    connTrailerState true [] errTrailerResp = .pending :=
  ⟨rfl, rfl, rfl, rfl, rfl⟩

/-- C3: on a trailers-only streaming response the body is asserted empty
(a non-empty body fails with the extra-trailer error, which also rejects
responseTrailer) and the first and all later reads return done, but the
responseTrailer promise is never resolved with the header block: the
foundStatus branch of the generator returns without settling it, so it
stays pending, diverging from the claim. -/
theorem c3_trailers_only_reads_done_trailer_pending :
    connRead true [] trailersOnlyResp 0 = .done ∧
    connRead true [] trailersOnlyResp 1 = .done ∧
    connRead true [] trailersOnlyResp 7 = .done ∧
    connTrailerState true [] trailersOnlyResp = .pending ∧
    connTrailerState true [] trailersOnlyResp ≠ .resolved trailersOnlyResp.header ∧
    connRead true [] trailersOnlyNonEmptyResp 0 = .error extraTrailerErr ∧
    connTrailerState true [] trailersOnlyNonEmptyResp = .rejected extraTrailerErr :=
  ⟨rfl, rfl, rfl, rfl, by decide, rfl, rfl⟩

/-- C4 counterexample: a unary trailers-only response with grpc-status 0
and an empty body fails with the protocol error missing trailer, not with
the missing-output-message error the claim states; the unary entry point
ignores foundStatus, so the empty body runs into the trailer check
first. -/
theorem c4_counterexample_missing_trailer :
    unaryCall true [] trailersOnlyResp = .error missingTrailerErr ∧
    missingTrailerErr.message ≠ "protocol error: missing output message for unary method" ∧
    missingTrailerErr.message ≠ "missing output message" :=
  ⟨rfl, by decide, by decide⟩

/-- C5 counterexample: when a second trailer envelope follows a valid
trailer, the read fails with the extra-trailer error, but responseTrailer
has already been resolved with the first trailer block, so the attempted
reject is without effect and the promise is not rejected with that error,
against the claim. -/
theorem c5_counterexample_reject_after_resolve :
    connRead true [] doubleTrailerResp 0 = .error extraTrailerErr ∧
    connTrailerState true [] doubleTrailerResp = .resolved [("grpc-status", "0")] ∧
    connTrailerState true [] doubleTrailerResp ≠ .rejected extraTrailerErr :=
  ⟨rfl, rfl, by decide⟩

/-- Bind on a failed step in the error monad fails. -/
theorem except_bind_error {ε α β : Type} (e : ε) (f : α → Except ε β) :
    (Except.error e >>= f) = Except.error e := rfl

/-- Bind on a successful step in the error monad continues. -/
theorem except_bind_ok {ε α β : Type} (a : α) (f : α → Except ε β) :
    (Except.ok a >>= f) = f a := rfl

/-- Pure of the error monad is success. -/
theorem except_pure {ε α : Type} (a : α) : (pure a : Except ε α) = Except.ok a := rfl

/-- Throw of the error monad is failure. -/
theorem except_throw {ε α : Type} (e : ε) : (throw e : Except ε α) = Except.error e := rfl

/-- C2: a unary body succeeds only with exactly one message and exactly
one trailer envelope, accepted in either order, and each violation yields
its named protocol error: a second trailer the extra-trailer error, a
second message the extra-output-message error, no trailer the
missing-trailer error, and a valid trailer without a message the
missing-output-message error. -/
theorem c2_unary_exactly_one_message_one_trailer {O : Type} :
    (∀ (envs : List (ParsedEnv O)) (o : O) (t : TrailerMap),
      unaryPostBody envs = .ok (o, t) → msgCount envs = 1 ∧ trailerCount envs = 1) ∧
    (∀ (o : O) (t : TrailerMap), validateTrailer t = none →
      unaryPostBody [ParsedEnv.msg o, ParsedEnv.trailer t] = .ok (o, t) ∧
      unaryPostBody [ParsedEnv.trailer t, ParsedEnv.msg o] = .ok (o, t)) ∧
    (∀ (t t' : TrailerMap) (rest : List (ParsedEnv O)),
      unaryPostBody (ParsedEnv.trailer t :: ParsedEnv.trailer t' :: rest)
        = .error extraTrailerErr) ∧
    (∀ (o : O) (t t' : TrailerMap) (rest : List (ParsedEnv O)),
      unaryPostBody (ParsedEnv.msg o :: ParsedEnv.trailer t :: ParsedEnv.trailer t' :: rest)
        = .error extraTrailerErr) ∧
    (∀ (o o' : O) (rest : List (ParsedEnv O)),
      unaryPostBody (ParsedEnv.msg o :: ParsedEnv.msg o' :: rest)
        = .error extraUnaryMessageErr) ∧
    (∀ (t : TrailerMap) (o o' : O) (rest : List (ParsedEnv O)),
      unaryPostBody (ParsedEnv.trailer t :: ParsedEnv.msg o :: ParsedEnv.msg o' :: rest)
        = .error extraUnaryMessageErr) ∧
    (unaryPostBody ([] : List (ParsedEnv O)) = .error missingTrailerErr) ∧
    (∀ (o : O), unaryPostBody [ParsedEnv.msg o] = .error missingTrailerErr) ∧
    (∀ (t : TrailerMap), validateTrailer t = none →
      unaryPostBody ([ParsedEnv.trailer t] : List (ParsedEnv O))
        = .error missingUnaryMessageErr) := by
  refine ⟨?_, ?_, fun t t' rest => rfl, fun o t t' rest => rfl,
    fun o o' rest => rfl, fun t o o' rest => rfl, rfl, fun o => rfl, ?_⟩
  · intro envs o t h
    unfold unaryPostBody at h
    cases hc : unaryCollect none none envs with
    | error e =>
      rw [hc] at h
      simp only [except_bind_error] at h
      exact Except.noConfusion h
    | ok p =>
      obtain ⟨m', t'⟩ := p
      rw [hc] at h
      simp only [except_bind_ok] at h
      have hcounts := unaryCollect_ok_counts envs none none m' t' hc
      cases t' with
      | none => exact Except.noConfusion h
      | some tt =>
        cases m' with
        | none =>
          dsimp only at h
          cases hv : validateTrailer tt with
          | none => rw [hv] at h; exact Except.noConfusion h
          | some e2 => rw [hv] at h; exact Except.noConfusion h
        | some mm =>
          simp only [optOne] at hcounts
          omega
  · intro o t hvt
    constructor <;>
      simp [unaryPostBody, unaryCollect, hvt, except_bind_ok, except_bind_error,
        except_pure, except_throw]
  · intro t hvt
    simp [unaryPostBody, unaryCollect, hvt, except_bind_ok, except_bind_error,
      except_pure, except_throw]

/-- Witness for C2 at concrete inputs: a message and a valid trailer in
either order succeed, and each violation case produces its error. -/
theorem c2_witness :
    (unaryPostBody [ParsedEnv.msg (), ParsedEnv.trailer [("grpc-status", "0")]]
      = .ok ((), [("grpc-status", "0")])) ∧
    (unaryPostBody [ParsedEnv.trailer [("grpc-status", "0")], ParsedEnv.msg ()]
      = .ok ((), [("grpc-status", "0")])) ∧
    (unaryPostBody ([ParsedEnv.trailer [], ParsedEnv.trailer []] : List (ParsedEnv Unit))
      = .error extraTrailerErr) ∧
    (unaryPostBody [ParsedEnv.msg (), ParsedEnv.msg ()] = .error extraUnaryMessageErr) ∧
    (unaryPostBody [ParsedEnv.msg ()] = .error missingTrailerErr) ∧
    (unaryPostBody ([ParsedEnv.trailer [("grpc-status", "0")]] : List (ParsedEnv Unit))
      = .error missingUnaryMessageErr) := by
  have h := @c2_unary_exactly_one_message_one_trailer Unit
  refine ⟨(h.2.1 () [("grpc-status", "0")] rfl).1, (h.2.1 () [("grpc-status", "0")] rfl).2,
    h.2.2.1 [] [] [], h.2.2.2.2.1 () () [], h.2.2.2.2.2.2.2.1 (),
    h.2.2.2.2.2.2.2.2 [("grpc-status", "0")] rfl⟩

/-- C4 amended: for a unary call on a trailers-only response, a non-zero
grpc-status in the headers fails with that status error as validation
throws it, but a zero grpc-status with an empty body fails with the
protocol error missing trailer, since the unary entry point ignores
foundStatus and the empty body reaches the trailer check. -/
theorem c4_trailers_only_unary_outcome (O : Type) :
    (∀ (hdr : TrailerMap),
      findHeader hdr "content-type" = some "application/grpc-web+proto" →
      findHeader hdr "grpc-encoding" = none →
      findHeader hdr "grpc-status" = some "0" →
      unaryCall true [] ⟨200, hdr, ([] : List (ParsedEnv O))⟩ = .error missingTrailerErr) ∧
    (∀ (hdr : TrailerMap) (s : String) (e : ConnectErr) (envs : List (ParsedEnv O)),
      findHeader hdr "content-type" = some "application/grpc-web+proto" →
      findHeader hdr "grpc-encoding" = none →
      findHeader hdr "grpc-status" = some s →
      validateTrailer hdr = some e →
      unaryCall true [] ⟨200, hdr, envs⟩ = .error e) := by
  constructor
  · intro hdr hct henc hst
    have hvt : validateTrailer hdr = none := by
      simp [validateTrailer, hst, parseDecimal, parseDecimalAux]
    simp [unaryCall, validateResponseWithCompression, hct, henc, hst, hvt,
      contentTypeOk, unaryPostBody, unaryCollect, except_bind_ok, except_bind_error,
      except_pure, except_throw]
  · intro hdr s e envs hct henc hst hvt
    simp [unaryCall, validateResponseWithCompression, hct, henc, hst, hvt,
      contentTypeOk, except_bind_ok, except_bind_error, except_pure, except_throw]

/-- Witness for C4 at a concrete header block: a zero status with empty
body gives the missing-trailer error and the status 5 header gives the
NotFound error. -/
theorem c4_witness :
    unaryCall true [] ⟨200, [("content-type", "application/grpc-web+proto"),
        ("grpc-status", "0")], ([] : List (ParsedEnv Unit))⟩ = .error missingTrailerErr ∧
    unaryCall true [] ⟨200, [("content-type", "application/grpc-web+proto"),
        ("grpc-status", "5"), ("grpc-message", "not%20found")],
        ([] : List (ParsedEnv Unit))⟩ = .error ⟨Code.NotFound, "not found", []⟩ := by
  constructor
  · exact (c4_trailers_only_unary_outcome Unit).1 _ rfl rfl rfl
  · exact (c4_trailers_only_unary_outcome Unit).2 _ "5" _ [] rfl rfl rfl rfl

/-- C5 amended: after the first valid trailer envelope any further trailer
envelope fails the stream with the extra-trailer error and any further
message envelope with the extra-message-after-trailer error; the generator
attempts to reject responseTrailer with that error, but the promise was
already resolved with the first trailer block and remains so; end of the
body without any trailer fails with the missing-trailer error and does
reject responseTrailer, which was still pending. -/
theorem c5_envelopes_after_trailer_and_missing_trailer (O : Type) :
    (∀ (pre : List O) (t t' : TrailerMap) (tail : List (ParsedEnv O)),
      validateTrailer t = none →
      streamGen false (pre.map ParsedEnv.msg
          ++ ParsedEnv.trailer t :: ParsedEnv.trailer t' :: tail)
        = ⟨pre, some extraTrailerErr,
           [DeferAction.resolve t, DeferAction.reject extraTrailerErr]⟩) ∧
    (∀ (pre : List O) (t : TrailerMap) (o : O) (tail : List (ParsedEnv O)),
      validateTrailer t = none →
      streamGen false (pre.map ParsedEnv.msg
          ++ ParsedEnv.trailer t :: ParsedEnv.msg o :: tail)
        = ⟨pre, some extraMessageAfterTrailerErr,
           [DeferAction.resolve t, DeferAction.reject extraMessageAfterTrailerErr]⟩) ∧
    (∀ (t : TrailerMap) (e : ConnectErr),
      settle [DeferAction.resolve t, DeferAction.reject e] = .resolved t) ∧
    (∀ (pre : List O),
      streamGen false (pre.map ParsedEnv.msg)
        = ⟨pre, some missingTrailerErr, [DeferAction.reject missingTrailerErr]⟩ ∧
      settle [DeferAction.reject missingTrailerErr] = .rejected missingTrailerErr) := by
  refine ⟨?_, ?_, fun t e => rfl, ?_⟩
  · intro pre t t' tail hvt
    simp [streamGen, streamLoop_yields_msgs_first, streamLoop, hvt]
  · intro pre t o tail hvt
    simp [streamGen, streamLoop_yields_msgs_first, streamLoop, hvt]
  · intro pre
    have h := streamLoop_yields_msgs_first pre ([] : List (ParsedEnv O))
    simp only [List.append_nil] at h
    exact ⟨by simp [streamGen, h, streamLoop], rfl⟩

/-- Witness for C5 at concrete inputs: one yielded message, then a second
trailer after the valid one, and the all-message body missing its
trailer. -/
theorem c5_witness :
    streamGen false [ParsedEnv.msg (), ParsedEnv.trailer [("grpc-status", "0")],
        ParsedEnv.trailer []]
      = ⟨[()], some extraTrailerErr,
         [DeferAction.resolve [("grpc-status", "0")], DeferAction.reject extraTrailerErr]⟩ ∧
    settle [DeferAction.resolve [("grpc-status", "0")], DeferAction.reject extraTrailerErr]
      = .resolved [("grpc-status", "0")] ∧
    streamGen false [ParsedEnv.msg (), ParsedEnv.msg ()]
      = ⟨[(), ()], some missingTrailerErr, [DeferAction.reject missingTrailerErr]⟩ := by
  have h := c5_envelopes_after_trailer_and_missing_trailer Unit
  exact ⟨h.1 [()] [("grpc-status", "0")] [] [] rfl,
    h.2.2.1 [("grpc-status", "0")] extraTrailerErr,
    (h.2.2.2 [(), ()]).1⟩

/-- C6: in the linearization of a streaming call, the responseHeader
promise resolves with the header block of the HTTP response head strictly
before the first read returns, since the first read awaits that head
before doing anything else. -/
theorem c6_response_header_before_first_read {O : Type} (ub : Bool)
    (ac : List String) (resp : UniversalResponse O) :
    ∃ i j, i < j ∧
      (callTrace ub ac resp).get? i = some (CallEvent.responseHeaderResolved resp.header) ∧
      (callTrace ub ac resp).get? j
        = some (CallEvent.readReturned (connRead ub ac resp 0)) :=
  ⟨3, 5, by omega, rfl, rfl⟩

/-- C10: the streaming entry point neither awaits the response head nor
validates the response before returning the connection; responseHeader is
the raw header block of the response head; and when validation would fail
its error is raised inside the first read, which then returns that
error while responseHeader still carries the raw headers. -/
theorem c10_validation_only_inside_first_read (O : Type) :
    (∀ resp : UniversalResponse O, responseHeaderOf resp = resp.header) ∧
    CallEvent.validationPerformed ∉ streamSetupTrace O ∧
    CallEvent.headReceived ∉ streamSetupTrace O ∧
    (∀ (ub : Bool) (ac : List String) (resp : UniversalResponse O) (e : ConnectErr),
      validateResponseWithCompression ub ac resp.status resp.header = .error e →
      connRead ub ac resp 0 = .error e ∧
      (firstReadTrace ub ac resp).get? 2 = some CallEvent.validationPerformed ∧
      responseHeaderOf resp = resp.header) := by
  refine ⟨fun _ => rfl, by simp [streamSetupTrace], by simp [streamSetupTrace], ?_⟩
  intro ub ac resp e h
  exact ⟨by simp [connRead, h], rfl, rfl⟩

/-- Witness for C10 at a concrete invalid response: an HTTP 500 head fails
validation, so the first read returns the mapped Unknown error while
responseHeader is still the raw (empty) header block. -/
theorem c10_witness :
    connRead true [] ⟨500, [], ([] : List (ParsedEnv Unit))⟩ 0
      = .error ⟨Code.Unknown, "HTTP 500", []⟩ ∧
    responseHeaderOf ⟨500, [], ([] : List (ParsedEnv Unit))⟩ = [] := by
  have h := (c10_validation_only_inside_first_read Unit).2.2.2 true []
    ⟨500, [], []⟩ ⟨Code.Unknown, "HTTP 500", []⟩ rfl
  exact ⟨h.1, h.2.2⟩

/-- Traversal of a mapped list is the traversal of the composition. -/
theorem mapExcept_map {α β γ : Type} (h : α → β) (f : β → Except ConnectErr γ)
    (l : List α) : mapExcept f (l.map h) = mapExcept (fun a => f (h a)) l := by
  induction l with
  | nil => rfl
  | cons a rest ih => simp [mapExcept, ih]

/-- Successful traversals of two list parts concatenate. -/
theorem mapExcept_append {α β : Type} (f : α → Except ConnectErr β)
    (l1 l2 : List α) (b1 b2 : List β)
    (h1 : mapExcept f l1 = .ok b1) (h2 : mapExcept f l2 = .ok b2) :
    mapExcept f (l1 ++ l2) = .ok (b1 ++ b2) := by
  induction l1 generalizing b1 with
  | nil =>
    simp only [mapExcept, Except.ok.injEq] at h1
    subst h1
    simpa using h2
  | cons a rest ih =>
    cases hfa : f a with
    | error e =>
      rw [mapExcept, hfa] at h1
      simp only [except_bind_error] at h1
      exact Except.noConfusion h1
    | ok b =>
      rw [mapExcept, hfa] at h1
      simp only [except_bind_ok] at h1
      cases hrest : mapExcept f rest with
      | error e =>
        rw [hrest] at h1
        simp only [except_bind_error] at h1
        exact Except.noConfusion h1
      | ok bs =>
        rw [hrest] at h1
        simp only [except_bind_ok, Except.ok.injEq] at h1
        subst h1
        rw [List.cons_append, mapExcept, hfa]
        simp only [except_bind_ok]
        rw [ih bs hrest]
        simp [except_bind_ok]

/-- Trailer envelope of a plain zero-status trailer block. -/
def trailerEnv0 : Envelope := ⟨trailerFlag, strBytes "grpc-status: 0\r\n"⟩

/-- Joining two groups of buffers joins each and concatenates. -/
theorem transformJoinEnvelopes_append (l1 l2 : List (List Nat)) :
    transformJoinEnvelopes (l1 ++ l2)
      = transformJoinEnvelopes l1 ++ transformJoinEnvelopes l2 := by
  induction l1 with
  | nil => rfl
  | cons a rest ih =>
    show a ++ transformJoinEnvelopes (rest ++ l2)
      = (a ++ transformJoinEnvelopes rest) ++ transformJoinEnvelopes l2
    rw [ih, List.append_assoc]

/-- The streaming request pipeline is the typed pipeline after the
normalize stage. -/
theorem streamRequestBody_eq_typed {I P : Type} (ctor : P → I) (ser : I → List Nat)
    (sc : Option Compression) (mb wm : Nat) (msgs : List (CallInput I P)) :
    streamRequestBody ctor ser sc mb wm msgs
      = streamRequestBodyTyped ser sc mb wm (msgs.map (normalizeMessage ctor)) := rfl

/-- The unary request body is the typed streaming pipeline applied to the
one normalized input. -/
theorem unaryRequestBody_eq_typed {I P : Type} (ctor : P → I) (ser : I → List Nat)
    (sc : Option Compression) (mb wm : Nat) (input : CallInput I P) :
    unaryRequestBody ctor ser sc mb wm input
      = streamRequestBodyTyped ser sc mb wm [normalizeMessage ctor input] := by
  cases hs : transformSerializeEnvelope ser wm (normalizeMessage ctor input) with
  | error e =>
    simp [unaryRequestBody, streamRequestBodyTyped, mapExcept, hs,
      except_bind_error, except_bind_ok]
  | ok env =>
    simp [unaryRequestBody, streamRequestBodyTyped, mapExcept, hs,
      except_bind_ok, except_pure, transformJoinEnvelopes]

/-- C8: the outbound input of a call may be a typed message, used
unchanged, or a structural value, converted by the input constructor; the
unary entry point normalizes its single input this way when building the
request, and the streaming pipeline applies the same normalization to
every sent message before serialization. -/
theorem c8_input_normalization {I P : Type} (ctor : P → I) :
    (∀ m : I, normalizeMessage ctor (CallInput.typed m) = m) ∧
    (∀ p : P, normalizeMessage ctor (CallInput.structural p) = ctor p) ∧
    (∀ (ser : I → List Nat) (sc : Option Compression) (mb wm : Nat)
        (msgs : List (CallInput I P)),
      streamRequestBody ctor ser sc mb wm msgs
        = streamRequestBodyTyped ser sc mb wm (msgs.map (normalizeMessage ctor))) ∧
    (∀ (ser : I → List Nat) (sc : Option Compression) (mb wm : Nat)
        (input : CallInput I P),
      unaryRequestBody ctor ser sc mb wm input
        = streamRequestBodyTyped ser sc mb wm [normalizeMessage ctor input]) :=
  ⟨fun _ => rfl, fun _ => rfl,
   fun ser sc mb wm msgs => streamRequestBody_eq_typed ctor ser sc mb wm msgs,
   fun ser sc mb wm input => unaryRequestBody_eq_typed ctor ser sc mb wm input⟩

/-- C7: the request body of both entry points is produced by normalize,
serialize, conditional compression and envelope joining in that order, and
the response pipeline applies envelope splitting, decompression and
envelope-or-trailer parsing in that order: feeding a request body built
from any message list, followed by an encoded trailer envelope, through
the response pipeline recovers exactly the normalized messages and the
trailer block. -/
theorem c7_pipeline_composition {I P : Type} (ctor : P → I) (ser : I → List Nat)
    (parse : List Nat → Except ConnectErr I) (comp : Compression) (wMax rMax : Nat)
    (hparse : ∀ m : I, parse (ser m) = .ok m)
    (hcd : ∀ m : I, comp.decompress (comp.compress (ser m)) = ser m)
    (hw : ∀ m : I, (ser m).length ≤ wMax)
    (hrm : ∀ m : I, (ser m).length ≤ rMax)
    (hcl : ∀ m : I, (comp.compress (ser m)).length ≤ rMax)
    (hc32 : ∀ m : I, (comp.compress (ser m)).length < 4294967296)
    (h16 : 16 ≤ rMax) :
    (∀ (msgs : List (CallInput I P)) (body : List Nat),
      streamRequestBody ctor ser (some comp) 0 wMax msgs = .ok body →
      responsePipeline parse (some comp) rMax
          (body ++ encodeEnvelope trailerEnv0)
        = .ok (msgs.map (fun x => ParsedEnv.msg (normalizeMessage ctor x))
            ++ [ParsedEnv.trailer [("grpc-status", "0")]])) ∧
    (∀ (input : CallInput I P) (body : List Nat),
      unaryRequestBody ctor ser (some comp) 0 wMax input = .ok body →
      responsePipeline parse (some comp) rMax
          (body ++ encodeEnvelope trailerEnv0)
        = .ok [ParsedEnv.msg (normalizeMessage ctor input),
               ParsedEnv.trailer [("grpc-status", "0")]]) := by
  have main : ∀ (typed : List I) (body : List Nat),
      streamRequestBodyTyped ser (some comp) 0 wMax typed = .ok body →
      responsePipeline parse (some comp) rMax
          (body ++ encodeEnvelope trailerEnv0)
        = .ok (typed.map ParsedEnv.msg ++ [ParsedEnv.trailer [("grpc-status", "0")]]) := by
    intro typed body hbody
    have hser : mapExcept (transformSerializeEnvelope ser wMax) typed
        = .ok (typed.map fun m => (⟨0, ser m⟩ : Envelope)) :=
      mapExcept_ok_of_forall _ _ typed (fun m hm => by
        unfold transformSerializeEnvelope
        rw [if_neg (by have := hw m; omega)])
    have hcompress : (typed.map fun m => (⟨0, ser m⟩ : Envelope)).map
          (transformCompressEnvelope (some comp) 0)
        = typed.map fun m => (⟨1, comp.compress (ser m)⟩ : Envelope) := by
      rw [List.map_map]
      apply List.map_congr_left
      intro m hm
      simp [transformCompressEnvelope, setCompressedBit]
    have hbody' : body = transformJoinEnvelopes
        ((typed.map fun m => (⟨1, comp.compress (ser m)⟩ : Envelope)).map encodeEnvelope) := by
      unfold streamRequestBodyTyped at hbody
      rw [hser] at hbody
      simp only [except_bind_ok, except_pure, Except.ok.injEq] at hbody
      rw [← hbody, hcompress]
    have hwire : (body ++ encodeEnvelope trailerEnv0)
        = transformJoinEnvelopes
            ((((typed.map fun m => (⟨1, comp.compress (ser m)⟩ : Envelope)))
              ++ [trailerEnv0]).map encodeEnvelope) := by
      rw [List.map_append, transformJoinEnvelopes_append, hbody']
      simp [transformJoinEnvelopes]
    have hsplit : transformSplitEnvelope rMax
        (transformJoinEnvelopes
          ((((typed.map fun m => (⟨1, comp.compress (ser m)⟩ : Envelope)))
            ++ [trailerEnv0]).map encodeEnvelope))
        = .ok ((typed.map fun m => (⟨1, comp.compress (ser m)⟩ : Envelope))
            ++ [trailerEnv0]) := by
      apply transformSplitEnvelope_join
      intro e he
      simp only [List.mem_append, List.mem_map, List.mem_singleton] at he
      rcases he with ⟨m, hm, rfl⟩ | rfl
      · exact ⟨hcl m, hc32 m, by show (1 : Nat) < 256; decide⟩
      · refine ⟨?_, by decide, by decide⟩
        have hlen : (strBytes "grpc-status: 0\r\n").length = 16 := rfl
        simp only [trailerEnv0]
        omega
    have hdec : mapExcept (transformDecompressEnvelope (some comp) rMax)
        ((typed.map fun m => (⟨1, comp.compress (ser m)⟩ : Envelope))
          ++ [trailerEnv0])
        = .ok ((typed.map fun m => (⟨0, ser m⟩ : Envelope))
            ++ [trailerEnv0]) := by
      apply mapExcept_append
      · rw [mapExcept_map]
        apply mapExcept_ok_of_forall _ (fun m => (⟨0, ser m⟩ : Envelope))
        intro m hm
        simp [transformDecompressEnvelope, hcd m, clearCompressedBit,
          Nat.not_lt.mpr (hrm m)]
      · simp [mapExcept, transformDecompressEnvelope, trailerEnv0, trailerFlag,
          except_bind_ok, except_pure]
    have htp : transformParseEnvelope parse trailerEnv0
        = .ok (ParsedEnv.trailer [("grpc-status", "0")]) := rfl
    have hpar : mapExcept (transformParseEnvelope parse)
        ((typed.map fun m => (⟨0, ser m⟩ : Envelope))
          ++ [trailerEnv0])
        = .ok (typed.map ParsedEnv.msg ++ [ParsedEnv.trailer [("grpc-status", "0")]]) := by
      apply mapExcept_append
      · rw [mapExcept_map]
        apply mapExcept_ok_of_forall _ ParsedEnv.msg
        intro m hm
        simp [transformParseEnvelope, hparse m, Except.map]
      · simp [mapExcept, htp, except_bind_ok, except_pure]
    unfold responsePipeline
    rw [hwire, hsplit]
    simp only [except_bind_ok]
    rw [hdec]
    simp only [except_bind_ok]
    exact hpar
  constructor
  · intro msgs body hb
    have hb' : streamRequestBodyTyped ser (some comp) 0 wMax
        (msgs.map (normalizeMessage ctor)) = .ok body := by
      rw [← streamRequestBody_eq_typed]
      exact hb
    have h := main (msgs.map (normalizeMessage ctor)) body hb'
    simpa [List.map_map, Function.comp] using h
  · intro input body hb
    have hb' : streamRequestBodyTyped ser (some comp) 0 wMax
        [normalizeMessage ctor input] = .ok body := by
      rw [← unaryRequestBody_eq_typed]
      exact hb
    have h := main [normalizeMessage ctor input] body hb'
    simpa using h

/-- Witness for C7 at a concrete instance: two one-byte messages through
an identity compression round trip to two parsed messages and the parsed
trailer block. -/
theorem c7_witness :
    responsePipeline (fun _ => Except.ok ()) (some ⟨"gzip", fun bs => bs, fun bs => bs⟩) 100
        ([1, 0, 0, 0, 1, 42, 1, 0, 0, 0, 1, 42]
          ++ encodeEnvelope trailerEnv0)
      = .ok [ParsedEnv.msg (), ParsedEnv.msg (), ParsedEnv.trailer [("grpc-status", "0")]] := by
  have h := (c7_pipeline_composition (fun _ : Unit => ()) (fun _ => [42])
      (fun _ => Except.ok ()) ⟨"gzip", fun bs => bs, fun bs => bs⟩ 100 100
      (fun _ => rfl) (fun _ => rfl) (fun m => by cases m; decide) (fun m => by cases m; decide)
      (fun m => by cases m; decide) (fun m => by cases m; decide) (by decide)).1
      [CallInput.typed (), CallInput.structural ()]
      [1, 0, 0, 0, 1, 42, 1, 0, 0, 0, 1, 42] rfl
  simpa using h

/-- C9: every constructed error of the staged error class carries a code
other than Ok (the code type excludes it); an omitted code defaults to
Unknown and omitted details default to the empty list. -/
theorem c9_error_code_never_ok_and_defaults :
    ∀ (m : String) (c : Option Bench.ErrorCode) (d : Option (List AnyDetail)),
      (Bench.ConnectError.make m c d).code.1 ≠ Code.Ok ∧
      (Bench.ConnectError.make m none d).code.1 = Code.Unknown ∧
      (Bench.ConnectError.make m c none).details = [] := by
  intro m c d
  refine ⟨?_, rfl, ?_⟩
  · match c with
    | none => simp [Bench.ConnectError.make]
    | some cv => simpa [Bench.ConnectError.make] using cv.2
  · cases c <;> rfl

end GrpcWeb
